import Mathlib

/-!
Shallow embedding of the reconciliation and interactive-update engine of the
repo-config tool (package `internal/config`: `status_output.go`, `delete.go`).

The configuration schema (`map[string]ItemConfig` in Go) is modelled as an
association list of key/item pairs; a Go map has unique keys, so theorems that
need uniqueness take a `Nodup` hypothesis on the key list.  The filesystem
state an invocation can touch — the stored-values JSON file and the derived
environment file — is a pair of optional file contents (`none` = the file does
not exist).  Input streams (`io.Reader` wrapped in `bufio.Reader`, read one
line at a time with `ReadString`) are lists of lines; an empty list means the
next read fails (EOF), which the Go code surfaces as an error.
-/

namespace RepoConfig

/-- `ItemConfig` from `status_output.go`: one declared configuration item. -/
structure ItemConfig where
  description : String := ""
  shellScript : String := ""
  default : String := ""
  tempEnvironmentVariableName : String := ""
  requiredAsEnv : Bool := false
  deriving Repr, DecidableEq

/-- The schema `map[string]ItemConfig` as an association list (key, item). -/
abbrev ConfigMap := List (String × ItemConfig)

/-- The stored-values map `map[string]string` as an association list. -/
abbrev ValueMap := List (String × String)

/-- The two output files an invocation can read or write.  `none` models a
file that does not exist on disk; `some s` a file whose contents are `s`.
The stored-values JSON file is kept in parsed form (its array of
`{Name, Value}` pairs), the environment file as raw text. -/
structure FS where
  jsonStore : Option (List (String × String)) := none
  envFile : Option String := none
  deriving Repr, DecidableEq

/-- Go map indexing `m[k]`: the value stored under `k`, if any.  (The maps
built here never hold two entries for one key, so the first match is the
match.) -/
def lookupVal {β : Type} (m : List (String × β)) (k : String) : Option β :=
  match m with
  | [] => none
  | p :: rest => if p.1 = k then some p.2 else lookupVal rest k

/-- One step of Go map insertion `m[k] = v`: overwrite the entry if the key is
present, otherwise append a new entry. -/
def insertValue (m : ValueMap) (k v : String) : ValueMap :=
  if m.any (fun p => p.1 == k) then
    m.map (fun p => if p.1 = k then (k, v) else p)
  else
    m ++ [(k, v)]

/-- `loadExistingValues`: fold the decoded array of `{Name, Value}` pairs into
a map with Go insertion semantics — the last pair for a duplicate name wins. -/
def loadExistingValues (pairs : List (String × String)) : ValueMap :=
  pairs.foldl (fun m p => insertValue m p.1 p.2) []

/-- `updateConfigMapWithExistingValues`: for every schema item whose key has a
stored value, replace the item's default with that value. -/
def updateConfigMapWithExistingValues (configMap : ConfigMap) (existingValues : ValueMap) :
    ConfigMap :=
  configMap.map fun p =>
    match lookupVal existingValues p.1 with
    | some v => (p.1, { p.2 with default := v })
    | none => p

/-- `compareConfigs`: true when some schema key has no stored value or some
stored name is no longer in the schema. -/
def compareConfigs (configMap : ConfigMap) (existingValues : ValueMap) : Bool :=
  configMap.any (fun p => !(existingValues.any (fun q => q.1 == p.1))) ||
    existingValues.any (fun q => !(configMap.any (fun p => p.1 == q.1)))

/-- `checkForMissingValues`: the keys whose (merged) default is empty. -/
def checkForMissingValues (configMap : ConfigMap) : List String :=
  configMap.foldl (fun acc p => if p.2.default = "" then acc ++ [p.1] else acc) []

/-- The name/value pairs `saveConfig` serializes into the stored-values JSON
file: one `{Name, Value}` pair per schema entry, value = current default. -/
def saveConfigPairs (configMap : ConfigMap) : List (String × String) :=
  configMap.map fun p => (p.1, p.2.default)

/-- The `NAME=value` lines `saveConfig` accumulates for the environment file:
one line per item with a non-empty `tempEnvironmentVariableName`. -/
def envLines (configMap : ConfigMap) : List String :=
  configMap.foldl
    (fun acc p =>
      if p.2.tempEnvironmentVariableName ≠ "" then
        acc ++ [p.2.tempEnvironmentVariableName ++ "=" ++ p.2.default]
      else acc)
    []

/-- `saveConfig`: always rewrite the stored-values JSON file; join the
environment lines with newlines (no trailing newline) and write the
environment file only when at least one line was produced. -/
def saveConfig (fs : FS) (configMap : ConfigMap) : FS :=
  let fs1 : FS := { fs with jsonStore := some (saveConfigPairs configMap) }
  let lines := envLines configMap
  if lines.isEmpty then fs1
  else { fs1 with envFile := some (String.intercalate "\n" lines) }

/-- Outcome of `CollectConfig` as far as the decision logic goes: either the
call returns nil after at most a silent save, or it hands the merged schema to
`interactiveConfig`. -/
inductive CollectOutcome where
  | done (fs : FS)
  | interactive (merged : ConfigMap) (fs : FS)
  deriving Repr, DecidableEq

/-- The existing values `CollectConfig` starts from: empty when the
stored-values file does not exist, otherwise the parsed file folded into a
map. -/
def collectExistingValues (fs : FS) : ValueMap :=
  match fs.jsonStore with
  | none => []
  | some pairs => loadExistingValues pairs

/-- `CollectConfig`: the full decision algorithm.  `inputExists` models the
initial `os.Stat` check on the schema file; `schemaMod` / `storeMod` are the
two modification times (`time.After` = strict `>`); the non-silent branch and
both change/missing branches end in the interactive path, whose stdin-driven
session is modelled separately by `interactiveConfig`. -/
def CollectConfig (inputExists : Bool) (schema : ConfigMap) (schemaMod storeMod : Nat)
    (silent : Bool) (fs : FS) : Except String CollectOutcome :=
  if !inputExists then .error "JSON file not found"
  else
    let existingValues := collectExistingValues fs
    let merged := updateConfigMapWithExistingValues schema existingValues
    if silent then
      if fs.jsonStore.isSome = false ∨ storeMod < schemaMod then
        if compareConfigs merged existingValues then
          .ok (.interactive merged fs)
        else
          .ok (.done (saveConfig fs merged))
      else
        if checkForMissingValues merged ≠ [] then
          .ok (.interactive merged fs)
        else
          .ok (.done fs)
    else
      .ok (.interactive merged fs)

/-- The digits of a string parsed as a natural number, `none` if the string is
empty or holds a non-digit. -/
def digitsToNat (cs : List Char) : Option Nat :=
  if cs.isEmpty || !cs.all Char.isDigit then none
  else some (cs.foldl (fun a c => a * 10 + (c.toNat - Char.toNat '0')) 0)

/-- `strconv.Atoi`: an optional sign followed by digits.  (Go additionally
fails with `ErrRange` on values outside the machine-int range; such inputs are
outside `[1, N]` for any table the tool can display, so both land in the same
invalid-input branch of the loop.) -/
def atoi (s : String) : Option Int :=
  match s.toList with
  | '+' :: rest => (digitsToNat rest).map Int.ofNat
  | '-' :: rest => (digitsToNat rest).map (fun n => -(n : Int))
  | cs => (digitsToNat cs).map Int.ofNat

/-- `strings.TrimSpace`: drop leading and trailing whitespace.  (Stated on the
character sequence of the string; faithful for the ASCII inputs the tool
dispatches on.) -/
def trimSpace (s : String) : String :=
  ⟨((s.data.dropWhile Char.isWhitespace).reverse.dropWhile Char.isWhitespace).reverse⟩

/-- `strings.ToLower`, mapping each character to lower case. -/
def toLowerStr (s : String) : String :=
  ⟨s.data.map Char.toLower⟩

/-- Insert a string into a ≤-sorted list, keeping it sorted. -/
def insertSorted (x : String) : List String → List String
  | [] => [x]
  | y :: ys => if x ≤ y then x :: y :: ys else y :: insertSorted x ys

/-- `sort.Strings`: the keys of the schema in lexicographic order.  The Go
code collects `keys` once, before the prompt loop. -/
def sortKeys (ks : List String) : List String := ks.foldr insertSorted []

/-- Updating the selected item: `item := configMap[key]; item.Default = v;
configMap[key] = item`. -/
def setDefault (configMap : ConfigMap) (key v : String) : ConfigMap :=
  configMap.map fun p => if p.1 = key then (p.1, { p.2 with default := v }) else p

/-- The prompt loop of `interactiveConfig`, over the pre-computed sorted key
list.  Each iteration reads one line (EOF is a read failure, returned as an
error), trims it, and dispatches on its lower-cased form: `s` saves and stays
in the loop, `c` returns, an integer in `[1, N]` reads a replacement line for
the chosen item (empty keeps the default, non-empty replaces it), anything
else prints a usage error and re-loops unchanged. -/
def interactiveLoop (keys : List String) (configMap : ConfigMap) (fs : FS) :
    List String → Except String (ConfigMap × FS)
  | [] => .error "failed to read input"
  | line :: rest =>
    if toLowerStr (trimSpace line) = "s" then
      interactiveLoop keys configMap (saveConfig fs configMap) rest
    else if toLowerStr (trimSpace line) = "c" then
      .ok (configMap, fs)
    else
      match atoi (trimSpace line) with
      | none => interactiveLoop keys configMap fs rest
      | some index =>
        if index < 1 ∨ index > (keys.length : Int) then
          interactiveLoop keys configMap fs rest
        else
          match rest with
          | [] => .error "failed to read input"
          | valueLine :: rest2 =>
            if trimSpace valueLine = "" then
              interactiveLoop keys configMap fs rest2
            else
              interactiveLoop keys
                (setDefault configMap (keys.getD (index.toNat - 1) "") (trimSpace valueLine)) fs rest2

/-- `interactiveConfig`: sort the schema keys once, then run the prompt loop
on the given input stream. -/
def interactiveConfig (configMap : ConfigMap) (fs : FS) (input : List String) :
    Except String (ConfigMap × FS) :=
  interactiveLoop (sortKeys (configMap.map Prod.fst)) configMap fs input

/-- The two output files, used to tag `filesToDelete` in `DeleteConfig`. -/
inductive OutFile where
  | json
  | env
  deriving Repr, DecidableEq

/-- `DeleteConfig` collects the output files that exist. -/
def filesToDelete (fs : FS) : List OutFile :=
  (if fs.jsonStore.isSome then [OutFile.json] else []) ++
    (if fs.envFile.isSome then [OutFile.env] else [])

/-- `deleteFiles`: remove each listed file. -/
def deleteFiles (fs : FS) (files : List OutFile) : FS :=
  files.foldl
    (fun s f =>
      match f with
      | OutFile.json => { s with jsonStore := none }
      | OutFile.env => { s with envFile := none })
    fs

/-- `promptAndDeleteFiles`: read one line; a line whose trimmed, lower-cased
form is `yes` confirms deletion, anything else cancels (still a success). -/
def promptAndDeleteFiles (fs : FS) (files : List OutFile) (input : List String) :
    Except String FS :=
  match input with
  | [] => .error "failed to read input"
  | line :: _ =>
    if toLowerStr (trimSpace line) = "yes" then .ok (deleteFiles fs files)
    else .ok fs

/-- `DeleteConfig`: nothing to delete is a non-error no-op; silent mode
deletes without prompting; otherwise the user is prompted for confirmation. -/
def DeleteConfig (fs : FS) (silent : Bool) (input : List String) : Except String FS :=
  let files := filesToDelete fs
  if files.isEmpty then .ok fs
  else if silent then (deleteFiles fs files) |> .ok
  else promptAndDeleteFiles fs files input

/-! ### Helper lemmas about the value-store map -/

theorem lookupVal_map_overwrite (m : ValueMap) (k v k' : String) (h : k' ≠ k) :
    lookupVal (m.map (fun p => if p.1 = k then (k, v) else p)) k' = lookupVal m k' := by
  induction m with
  | nil => simp [lookupVal]
  | cons a as ih =>
    by_cases ha : a.1 = k
    · have hak' : ¬ a.1 = k' := by rw [ha]; exact Ne.symm h
      simp [lookupVal, ha, Ne.symm h, hak', ih]
    · by_cases hka : a.1 = k'
      · simp [lookupVal, ha, hka, h]
      · simp [lookupVal, ha, hka, ih]

theorem lookupVal_map_overwrite_self (m : ValueMap) (k v : String)
    (h : m.any (fun p => p.1 == k) = true) :
    lookupVal (m.map (fun p => if p.1 = k then (k, v) else p)) k = some v := by
  induction m with
  | nil => simp at h
  | cons a as ih =>
    by_cases ha : a.1 = k
    · simp [lookupVal, ha]
    · have h2 : as.any (fun p => p.1 == k) = true := by
        rw [List.any_cons, Bool.or_eq_true] at h
        rcases h with h | h
        · exact absurd (beq_iff_eq.mp h) ha
        · exact h
      simp [lookupVal, ha, ih h2]

theorem lookupVal_append (m l : ValueMap) (k : String) :
    lookupVal (m ++ l) k = ((lookupVal m k).or (lookupVal l k)) := by
  induction m with
  | nil => simp [lookupVal]
  | cons a as ih =>
    by_cases ha : a.1 = k
    · simp [lookupVal, ha]
    · simp [lookupVal, ha, ih]

theorem lookupVal_not_mem (m : ValueMap) (k : String)
    (h : m.any (fun p => p.1 == k) = false) :
    lookupVal m k = none := by
  induction m with
  | nil => rfl
  | cons a as ih =>
    rw [List.any_cons, Bool.or_eq_false_iff] at h
    have ha : a.1 ≠ k := beq_eq_false_iff_ne.mp h.1
    simp only [lookupVal, if_neg ha]
    exact ih h.2

theorem lookupVal_insertValue (m : ValueMap) (k v k' : String) :
    lookupVal (insertValue m k v) k' = if k' = k then some v else lookupVal m k' := by
  by_cases hA : (m.any (fun p => p.1 == k)) = true
  · rw [insertValue, if_pos hA]
    by_cases hk : k' = k
    · subst hk
      rw [if_pos rfl]
      exact lookupVal_map_overwrite_self m k' v hA
    · rw [if_neg hk]
      exact lookupVal_map_overwrite m k v k' hk
  · have hA' : (m.any (fun p => p.1 == k)) = false := by
      cases hE : m.any (fun p => p.1 == k)
      · rfl
      · exact absurd hE hA
    rw [insertValue, if_neg hA, lookupVal_append]
    by_cases hk : k' = k
    · subst hk
      rw [if_pos rfl, lookupVal_not_mem m k' hA']
      simp [lookupVal]
    · rw [if_neg hk]
      have hsingle : lookupVal [(k, v)] k' = none := by
        simp [lookupVal, Ne.symm hk]
      rw [hsingle, Option.or_none]

theorem foldl_insertValue_lookup (pairs : List (String × String)) :
    ∀ (acc : ValueMap) (k : String),
      lookupVal (pairs.foldl (fun m p => insertValue m p.1 p.2) acc) k =
        match pairs.reverse.find? (fun p => p.1 == k) with
        | some p => some p.2
        | none => lookupVal acc k := by
  induction pairs with
  | nil => intro acc k; simp
  | cons p ps ih =>
    intro acc k
    simp only [List.foldl_cons, List.reverse_cons, List.find?_append]
    rw [ih]
    cases hf : ps.reverse.find? (fun q => q.1 == k) with
    | some q => simp
    | none =>
      rw [Option.none_or]
      by_cases hp : p.1 = k
      · have hpk : (p.1 == k) = true := beq_iff_eq.mpr hp
        rw [lookupVal_insertValue, if_pos hp.symm]
        simp [List.find?_cons, hpk]
      · have h1 : (p.1 == k) = false := beq_eq_false_iff_ne.mpr hp
        rw [lookupVal_insertValue, if_neg (fun e => hp e.symm)]
        simp [List.find?_cons, h1]

/-- Reading the stored-values array back: the last `{Name, Value}` pair for a
given name wins. -/
theorem lookupVal_loadExistingValues (pairs : List (String × String)) (k : String) :
    lookupVal (loadExistingValues pairs) k =
      (pairs.reverse.find? (fun p => p.1 == k)).map Prod.snd := by
  rw [loadExistingValues, foldl_insertValue_lookup]
  cases pairs.reverse.find? (fun p => p.1 == k) <;> simp [lookupVal]

/-! ### Characterizations of the accumulator loops -/

theorem checkForMissingValues_foldl (cm : ConfigMap) :
    ∀ acc : List String,
      cm.foldl (fun acc p => if p.2.default = "" then acc ++ [p.1] else acc) acc =
        acc ++ (cm.filter (fun p => p.2.default == "")).map Prod.fst := by
  induction cm with
  | nil => intro acc; simp
  | cons a as ih =>
    intro acc
    by_cases ha : a.2.default = ""
    · simp [List.foldl_cons, ha, List.filter_cons, ih]
    · simp [List.foldl_cons, ha, List.filter_cons, ih]

theorem checkForMissingValues_eq (cm : ConfigMap) :
    checkForMissingValues cm = (cm.filter (fun p => p.2.default == "")).map Prod.fst := by
  rw [checkForMissingValues, checkForMissingValues_foldl]
  simp

theorem checkForMissingValues_eq_nil_iff (cm : ConfigMap) :
    checkForMissingValues cm = [] ↔ ∀ p ∈ cm, p.2.default ≠ "" := by
  rw [checkForMissingValues_eq]
  simp

theorem envLines_foldl (cm : ConfigMap) :
    ∀ acc : List String,
      cm.foldl
          (fun acc p =>
            if p.2.tempEnvironmentVariableName ≠ "" then
              acc ++ [p.2.tempEnvironmentVariableName ++ "=" ++ p.2.default]
            else acc)
          acc =
        acc ++ (cm.filter (fun p => p.2.tempEnvironmentVariableName != "")).map
          (fun p => p.2.tempEnvironmentVariableName ++ "=" ++ p.2.default) := by
  induction cm with
  | nil => intro acc; simp
  | cons a as ih =>
    intro acc
    rw [List.foldl_cons, List.filter_cons]
    by_cases ha : a.2.tempEnvironmentVariableName = ""
    · rw [if_neg (fun hne => hne ha), ih]
      have hb : (a.2.tempEnvironmentVariableName != "") = false := by simp [ha]
      rw [hb]
      simp
    · rw [if_pos ha, ih]
      have hb : (a.2.tempEnvironmentVariableName != "") = true := by simp [ha]
      rw [hb]
      simp

theorem envLines_eq (cm : ConfigMap) :
    envLines cm = (cm.filter (fun p => p.2.tempEnvironmentVariableName != "")).map
      (fun p => p.2.tempEnvironmentVariableName ++ "=" ++ p.2.default) := by
  rw [envLines, envLines_foldl]
  simp

/-! ### The store round-trip under unique keys -/

theorem foldl_insertValue_nodup (pairs : List (String × String)) :
    ∀ acc : ValueMap, ((acc ++ pairs).map Prod.fst).Nodup →
      pairs.foldl (fun m p => insertValue m p.1 p.2) acc = acc ++ pairs := by
  induction pairs with
  | nil => intro acc _; simp
  | cons p ps ih =>
    intro acc hnd
    have hmem : p.1 ∉ acc.map Prod.fst := by
      rw [List.map_append, List.nodup_append] at hnd
      intro hc
      exact hnd.2.2 hc (by simp)
    have hany : acc.any (fun q => q.1 == p.1) = false := by
      rw [List.any_eq_false]
      intro q hq
      simp only [beq_iff_eq]
      intro he
      exact hmem (he ▸ List.mem_map_of_mem Prod.fst hq)
    have hins : insertValue acc p.1 p.2 = acc ++ [p] := by
      rw [insertValue, if_neg (by simp [hany])]
    rw [List.foldl_cons, hins, ih (acc ++ [p]) (by simpa using hnd)]
    simp

theorem loadExistingValues_nodup (pairs : List (String × String))
    (h : (pairs.map Prod.fst).Nodup) : loadExistingValues pairs = pairs := by
  rw [loadExistingValues, foldl_insertValue_nodup pairs [] (by simpa using h)]
  simp

theorem lookupVal_of_mem_nodup {β : Type} (m : List (String × β))
    (h : (m.map Prod.fst).Nodup) (k : String) (v : β) (hm : (k, v) ∈ m) :
    lookupVal m k = some v := by
  induction m with
  | nil => cases hm
  | cons a as ih =>
    rw [List.map_cons, List.nodup_cons] at h
    rcases List.mem_cons.mp hm with he | hmem
    · rw [← he]
      simp [lookupVal]
    · have ha : a.1 ≠ k := by
        intro he
        exact h.1 (he ▸ List.mem_map_of_mem Prod.fst hmem)
      simp only [lookupVal, if_neg ha]
      exact ih h.2 hmem

theorem saveConfigPairs_keys (cm : ConfigMap) :
    (saveConfigPairs cm).map Prod.fst = cm.map Prod.fst := by
  rw [saveConfigPairs, List.map_map]
  rfl

theorem update_save_load_eq (cm : ConfigMap) (h : (cm.map Prod.fst).Nodup) :
    updateConfigMapWithExistingValues cm (loadExistingValues (saveConfigPairs cm)) = cm := by
  have hload : loadExistingValues (saveConfigPairs cm) = saveConfigPairs cm :=
    loadExistingValues_nodup _ (by rw [saveConfigPairs_keys]; exact h)
  rw [hload, updateConfigMapWithExistingValues]
  have hid : ∀ p ∈ cm, (fun p : String × ItemConfig =>
      match lookupVal (saveConfigPairs cm) p.1 with
      | some v => (p.1, { p.2 with default := v })
      | none => p) p = id p := by
    intro p hp
    have hmem : (p.1, p.2.default) ∈ saveConfigPairs cm :=
      List.mem_map_of_mem (fun q => (q.1, q.2.default)) hp
    have hl : lookupVal (saveConfigPairs cm) p.1 = some p.2.default :=
      lookupVal_of_mem_nodup _ (by rw [saveConfigPairs_keys]; exact h) _ _ hmem
    simp only [hl, id]
  rw [List.map_congr_left hid, List.map_id]

/-! ### Keys of the interactive session -/

theorem insertSorted_length (x : String) (l : List String) :
    (insertSorted x l).length = l.length + 1 := by
  induction l with
  | nil => rfl
  | cons y ys ih =>
    rw [insertSorted]
    by_cases h : x ≤ y
    · rw [if_pos h]
      simp
    · rw [if_neg h]
      simp [ih]

theorem sortKeys_length (ks : List String) : (sortKeys ks).length = ks.length := by
  induction ks with
  | nil => rfl
  | cons k ks ih =>
    rw [sortKeys, List.foldr_cons, insertSorted_length]
    rw [sortKeys] at ih
    simp [ih]

theorem setDefault_keys (cm : ConfigMap) (key v : String) :
    (setDefault cm key v).map Prod.fst = cm.map Prod.fst := by
  rw [setDefault, List.map_map]
  apply List.map_congr_left
  intro p _
  by_cases h : p.1 = key
  · simp [h]
  · simp [h]

/-! ### Stepping the interactive prompt loop -/

theorem interactiveLoop_nil (keys : List String) (cm : ConfigMap) (fs : FS) :
    interactiveLoop keys cm fs [] = .error "failed to read input" := by
  rw [interactiveLoop]

theorem interactiveLoop_cons_s (keys : List String) (cm : ConfigMap) (fs : FS)
    (line : String) (rest : List String) (h : toLowerStr (trimSpace line) = "s") :
    interactiveLoop keys cm fs (line :: rest) =
      interactiveLoop keys cm (saveConfig fs cm) rest := by
  rw [interactiveLoop, if_pos h]

theorem interactiveLoop_cons_c (keys : List String) (cm : ConfigMap) (fs : FS)
    (line : String) (rest : List String) (h : toLowerStr (trimSpace line) = "c") :
    interactiveLoop keys cm fs (line :: rest) = .ok (cm, fs) := by
  have hs : ¬ toLowerStr (trimSpace line) = "s" := by rw [h]; decide
  rw [interactiveLoop, if_neg hs, if_pos h]

theorem interactiveLoop_cons_invalid (keys : List String) (cm : ConfigMap) (fs : FS)
    (line : String) (rest : List String)
    (hs : ¬ toLowerStr (trimSpace line) = "s") (hc : ¬ toLowerStr (trimSpace line) = "c")
    (hbad : ∀ i : Int, atoi (trimSpace line) = some i → (i < 1 ∨ i > (keys.length : Int))) :
    interactiveLoop keys cm fs (line :: rest) = interactiveLoop keys cm fs rest := by
  rw [interactiveLoop, if_neg hs, if_neg hc]
  cases hA : atoi (trimSpace line) with
  | none => rfl
  | some i => exact if_pos (hbad i hA)

theorem interactiveLoop_cons_num_empty (keys : List String) (cm : ConfigMap) (fs : FS)
    (line v : String) (rest : List String) (i : Int)
    (hs : ¬ toLowerStr (trimSpace line) = "s") (hc : ¬ toLowerStr (trimSpace line) = "c")
    (hA : atoi (trimSpace line) = some i) (hr : ¬ (i < 1 ∨ i > (keys.length : Int)))
    (hv : trimSpace v = "") :
    interactiveLoop keys cm fs (line :: v :: rest) = interactiveLoop keys cm fs rest := by
  rw [interactiveLoop, if_neg hs, if_neg hc, hA]
  simp only [if_neg hr, if_pos hv]

theorem interactiveLoop_cons_num_set (keys : List String) (cm : ConfigMap) (fs : FS)
    (line v : String) (rest : List String) (i : Int)
    (hs : ¬ toLowerStr (trimSpace line) = "s") (hc : ¬ toLowerStr (trimSpace line) = "c")
    (hA : atoi (trimSpace line) = some i) (hr : ¬ (i < 1 ∨ i > (keys.length : Int)))
    (hv : ¬ trimSpace v = "") :
    interactiveLoop keys cm fs (line :: v :: rest) =
      interactiveLoop keys (setDefault cm (keys.getD (i.toNat - 1) "") (trimSpace v)) fs rest := by
  rw [interactiveLoop, if_neg hs, if_neg hc, hA]
  simp only [if_neg hr, if_neg hv]

/-- Fuel-indexed strong induction: a run of the loop that returns `ok` must
have dispatched some line as `c`. -/
theorem interactiveLoop_ok_mem_c_aux (n : Nat) :
    ∀ (input : List String), input.length ≤ n →
      ∀ (keys : List String) (cm : ConfigMap) (fs : FS) (r : ConfigMap × FS),
        interactiveLoop keys cm fs input = .ok r →
        ∃ l ∈ input, toLowerStr (trimSpace l) = "c" := by
  induction n with
  | zero =>
    intro input hlen keys cm fs r h
    rw [List.length_eq_zero.mp (Nat.le_zero.mp hlen)] at h
    rw [interactiveLoop_nil] at h
    cases h
  | succ n ih =>
    intro input hlen keys cm fs r h
    cases input with
    | nil =>
      rw [interactiveLoop_nil] at h
      cases h
    | cons line rest =>
      have hrest : rest.length ≤ n := by
        simpa using Nat.le_of_succ_le_succ (by simpa using hlen)
      by_cases hc : toLowerStr (trimSpace line) = "c"
      · exact ⟨line, List.mem_cons_self _ _, hc⟩
      · by_cases hs : toLowerStr (trimSpace line) = "s"
        · rw [interactiveLoop_cons_s keys cm fs line rest hs] at h
          obtain ⟨l, hl, hlc⟩ := ih rest hrest keys cm _ r h
          exact ⟨l, List.mem_cons_of_mem _ hl, hlc⟩
        · rw [interactiveLoop, if_neg hs, if_neg hc] at h
          cases hA : atoi (trimSpace line) with
          | none =>
            rw [hA] at h
            obtain ⟨l, hl, hlc⟩ := ih rest hrest keys cm fs r h
            exact ⟨l, List.mem_cons_of_mem _ hl, hlc⟩
          | some i =>
            rw [hA] at h
            by_cases hr : i < 1 ∨ i > (keys.length : Int)
            · simp only [if_pos hr] at h
              obtain ⟨l, hl, hlc⟩ := ih rest hrest keys cm fs r h
              exact ⟨l, List.mem_cons_of_mem _ hl, hlc⟩
            · simp only [if_neg hr] at h
              cases rest with
              | nil => cases h
              | cons v rest2 =>
                have hrest2 : rest2.length ≤ n := by
                  simp only [List.length_cons] at hrest
                  omega
                by_cases hv : trimSpace v = ""
                · simp only [if_pos hv] at h
                  obtain ⟨l, hl, hlc⟩ := ih rest2 hrest2 keys cm fs r h
                  exact ⟨l, List.mem_cons_of_mem _ (List.mem_cons_of_mem _ hl), hlc⟩
                · simp only [if_neg hv] at h
                  obtain ⟨l, hl, hlc⟩ := ih rest2 hrest2 keys _ fs r h
                  exact ⟨l, List.mem_cons_of_mem _ (List.mem_cons_of_mem _ hl), hlc⟩

/-- Fuel-indexed strong induction: if no input line dispatches as `s`, a
successful session leaves the filesystem untouched. -/
theorem interactiveLoop_noSave_aux (n : Nat) :
    ∀ (input : List String), input.length ≤ n →
      ∀ (keys : List String) (cm cm' : ConfigMap) (fs fs' : FS),
        (∀ l ∈ input, toLowerStr (trimSpace l) ≠ "s") →
        interactiveLoop keys cm fs input = .ok (cm', fs') →
        fs' = fs := by
  induction n with
  | zero =>
    intro input hlen keys cm cm' fs fs' hns h
    rw [List.length_eq_zero.mp (Nat.le_zero.mp hlen)] at h
    rw [interactiveLoop_nil] at h
    cases h
  | succ n ih =>
    intro input hlen keys cm cm' fs fs' hns h
    cases input with
    | nil =>
      rw [interactiveLoop_nil] at h
      cases h
    | cons line rest =>
      have hrest : rest.length ≤ n := by
        simpa using Nat.le_of_succ_le_succ (by simpa using hlen)
      have hnrest : ∀ l ∈ rest, toLowerStr (trimSpace l) ≠ "s" :=
        fun l hl => hns l (List.mem_cons_of_mem _ hl)
      have hs : ¬ toLowerStr (trimSpace line) = "s" := hns line (List.mem_cons_self _ _)
      by_cases hc : toLowerStr (trimSpace line) = "c"
      · rw [interactiveLoop_cons_c keys cm fs line rest hc] at h
        cases h
        rfl
      · rw [interactiveLoop, if_neg hs, if_neg hc] at h
        cases hA : atoi (trimSpace line) with
        | none =>
          rw [hA] at h
          exact ih rest hrest keys cm cm' fs fs' hnrest h
        | some i =>
          rw [hA] at h
          by_cases hr : i < 1 ∨ i > (keys.length : Int)
          · simp only [if_pos hr] at h
            exact ih rest hrest keys cm cm' fs fs' hnrest h
          · simp only [if_neg hr] at h
            cases rest with
            | nil => cases h
            | cons v rest2 =>
              have hrest2 : rest2.length ≤ n := by
                simp only [List.length_cons] at hrest
                omega
              have hnrest2 : ∀ l ∈ rest2, toLowerStr (trimSpace l) ≠ "s" :=
                fun l hl => hnrest l (List.mem_cons_of_mem _ hl)
              by_cases hv : trimSpace v = ""
              · simp only [if_pos hv] at h
                exact ih rest2 hrest2 keys cm cm' fs fs' hnrest2 h
              · simp only [if_neg hv] at h
                exact ih rest2 hrest2 keys _ cm' fs fs' hnrest2 h

/-! ### Remaining helpers for the collect path -/

theorem updateConfigMap_nil (schema : ConfigMap) :
    updateConfigMapWithExistingValues schema [] = schema := by
  rw [updateConfigMapWithExistingValues]
  have hid : ∀ p ∈ schema, (fun p : String × ItemConfig =>
      match lookupVal ([] : ValueMap) p.1 with
      | some v => (p.1, { p.2 with default := v })
      | none => p) p = id p := fun p _ => rfl
  rw [List.map_congr_left hid, List.map_id]

theorem CollectConfig_exists_ok (schema : ConfigMap) (schemaMod storeMod : Nat)
    (silent : Bool) (fs : FS) :
    ∃ r, CollectConfig true schema schemaMod storeMod silent fs = .ok r := by
  rw [CollectConfig]
  rw [if_neg (by simp)]
  cases silent with
  | false => exact ⟨_, rfl⟩
  | true =>
    by_cases h1 : fs.jsonStore.isSome = false ∨ storeMod < schemaMod
    · simp only [if_pos rfl, if_pos h1]
      by_cases h2 : compareConfigs (updateConfigMapWithExistingValues schema
          (collectExistingValues fs)) (collectExistingValues fs) = true
      · simp only [if_pos h2]
        exact ⟨_, rfl⟩
      · simp only [if_neg h2]
        exact ⟨_, rfl⟩
    · simp only [if_pos rfl, if_neg h1]
      by_cases h3 : checkForMissingValues (updateConfigMapWithExistingValues schema
          (collectExistingValues fs)) ≠ []
      · simp only [if_pos h3]
        exact ⟨_, rfl⟩
      · simp only [if_neg h3]
        exact ⟨_, rfl⟩

/-! ### Claim C1 -/

/-- The schema of scenario 2 after `setting2` was dropped. -/
def scenario2Schema : ConfigMap :=
  [("setting1", { description := "Setting 1", default := "value1",
                  tempEnvironmentVariableName := "SETTING1" })]

/-- The prior outputs of scenario 2: the store still holds `setting1` and
`setting2`, the environment file both lines. -/
def scenario2FS : FS :=
  { jsonStore := some [("setting1", "value1"), ("setting2", "value2")],
    envFile := some "SETTING1=value1\nSETTING2=value2" }

/-- Claim C1.  With the schema file's modification time (0) older than the
store's (1), silent `CollectConfig` takes the up-to-date branch, finds no
missing value (the merged default of `setting1` is `value1`), and returns
success without writing either output file: the stored-values file still
holds the removed `setting2` entry and the environment file still holds the
`SETTING2` line.  The claim (and the repository's own test
`TestCollectConfigSilentWithRemovedSetting`) instead demands a store holding
only `SETTING1=value1` and an environment file of exactly `SETTING1=value1`,
so the code contradicts its own test here. -/
theorem collectConfig_scenario2_leaves_stale_outputs :
    CollectConfig true scenario2Schema 0 1 true scenario2FS = .ok (.done scenario2FS) ∧
    scenario2FS.jsonStore = some [("setting1", "value1"), ("setting2", "value2")] ∧
    scenario2FS.envFile = some "SETTING1=value1\nSETTING2=value2" :=
  ⟨rfl, rfl, rfl⟩

/-! ### Claim C3 -/

/-- Claim C3.  `compareConfigs` returns true exactly when some schema key is
absent from the stored-values mapping or some stored name is absent from the
schema; in particular it is true on keys {A,B} vs {A,B,C} and false on
{A,B} vs {A,B}, whatever the associated items and values are. -/
theorem compareConfigs_key_sets :
    (∀ (cm : ConfigMap) (ev : ValueMap),
        compareConfigs cm ev = true ↔
          (∃ k ∈ cm.map Prod.fst, k ∉ ev.map Prod.fst) ∨
            (∃ k ∈ ev.map Prod.fst, k ∉ cm.map Prod.fst)) ∧
    (∀ (iA iB : ItemConfig) (vA vB vC : String),
        compareConfigs [("A", iA), ("B", iB)] [("A", vA), ("B", vB), ("C", vC)] = true) ∧
    (∀ (iA iB : ItemConfig) (vA vB : String),
        compareConfigs [("A", iA), ("B", iB)] [("A", vA), ("B", vB)] = false) := by
  refine ⟨?_, ?_, ?_⟩
  · intro cm ev
    rw [compareConfigs, Bool.or_eq_true]
    simp only [List.any_eq_true, Bool.not_eq_true', List.any_eq_false, beq_iff_eq,
      List.mem_map, not_exists, not_and]
    constructor
    · rintro (⟨p, hp, hnp⟩ | ⟨q, hq, hnq⟩)
      · exact Or.inl ⟨p.1, ⟨p, hp, rfl⟩, fun q hq he => hnp q hq he⟩
      · exact Or.inr ⟨q.1, ⟨q, hq, rfl⟩, fun p hp he => hnq p hp he⟩
    · rintro (⟨k, ⟨p, hp, rfl⟩, hk⟩ | ⟨k, ⟨q, hq, rfl⟩, hk⟩)
      · exact Or.inl ⟨p, hp, fun q hq he => hk q hq he⟩
      · exact Or.inr ⟨q, hq, fun p hp he => hk p hp he⟩
  · intro iA iB vA vB vC
    rfl
  · intro iA iB vA vB
    rfl

/-! ### Claim C5 -/

/-- Claim C5.  `saveConfig` emits one `NAME=value` line per schema item with
a non-empty `tempEnvironmentVariableName`; the environment file receives the
lines newline-joined with no trailing newline, and when no line qualifies
the environment file is left exactly as it was. -/
theorem saveConfig_envFile_spec :
    ∀ (fs : FS) (cm : ConfigMap),
      envLines cm = (cm.filter (fun p => p.2.tempEnvironmentVariableName != "")).map
          (fun p => p.2.tempEnvironmentVariableName ++ "=" ++ p.2.default) ∧
      (envLines cm ≠ [] →
        (saveConfig fs cm).envFile = some (String.intercalate "\n" (envLines cm))) ∧
      (envLines cm = [] → (saveConfig fs cm).envFile = fs.envFile) := by
  intro fs cm
  refine ⟨envLines_eq cm, ?_, ?_⟩
  · intro h
    rw [saveConfig]
    simp only [List.isEmpty_eq_false.mpr h, Bool.false_eq_true, if_false]
  · intro h
    rw [saveConfig]
    simp only [h, List.isEmpty_nil, if_true]

/-! ### Claim C6 -/

/-- Claim C6.  A missing stored-values file is not an error: `CollectConfig`
still returns, and it proceeds with the empty mapping (merging it changes no
schema item).  When the file exists, `loadExistingValues` builds a mapping
from `Name` to `Value` where the last pair for a duplicate name wins. -/
theorem collectConfig_store_read_spec :
    (∀ (schema : ConfigMap) (schemaMod storeMod : Nat) (silent : Bool) (envF : Option String),
        (∃ r, CollectConfig true schema schemaMod storeMod silent
            { jsonStore := none, envFile := envF } = .ok r) ∧
        updateConfigMapWithExistingValues schema
            (collectExistingValues { jsonStore := none, envFile := envF }) = schema) ∧
    (∀ (pairs : List (String × String)) (k : String),
        lookupVal (loadExistingValues pairs) k =
          (pairs.reverse.find? (fun p => p.1 == k)).map Prod.snd) := by
  constructor
  · intro schema sm om silent envF
    exact ⟨CollectConfig_exists_ok schema sm om silent _, updateConfigMap_nil schema⟩
  · exact fun pairs k => lookupVal_loadExistingValues pairs k

/-! ### Claim C9 -/

/-- Claim C9.  With both output files present, answering `no` leaves both
files intact and succeeds, answering `yes` removes both; with neither file
present the call succeeds for every input stream, so nothing is prompted or
deleted. -/
theorem deleteConfig_prompt_spec :
    ∀ (j : List (String × String)) (e : String) (rest : List String),
      DeleteConfig { jsonStore := some j, envFile := some e } false ("no" :: rest) =
        .ok { jsonStore := some j, envFile := some e } ∧
      DeleteConfig { jsonStore := some j, envFile := some e } false ("yes" :: rest) =
        .ok { jsonStore := none, envFile := none } ∧
      ∀ (silent : Bool) (input : List String),
        DeleteConfig { jsonStore := none, envFile := none } silent input =
          .ok { jsonStore := none, envFile := none } := by
  intro j e rest
  refine ⟨rfl, rfl, ?_⟩
  intro silent input
  rfl

/-! ### Claim C2 -/

theorem collectConfig_upToDate (schema : ConfigMap) (schemaMod storeMod : Nat) (fs : FS)
    (h1 : fs.jsonStore.isSome = true) (h2 : ¬ storeMod < schemaMod) :
    CollectConfig true schema schemaMod storeMod true fs =
      if checkForMissingValues (updateConfigMapWithExistingValues schema
          (collectExistingValues fs)) ≠ [] then
        .ok (.interactive (updateConfigMapWithExistingValues schema
          (collectExistingValues fs)) fs)
      else .ok (.done fs) := by
  have hcond : ¬ (fs.jsonStore.isSome = false ∨ storeMod < schemaMod) := by
    rintro (hc | hc)
    · rw [h1] at hc
      cases hc
    · exact h2 hc
  rw [CollectConfig]
  rw [if_neg (by simp)]
  simp only [if_pos rfl, if_neg hcond]
  rw [if_pos trivial]

/-- Claim C2.  In silent mode, when the stored-values file exists and the
schema file is not newer than it, the interactive path is entered exactly
when some schema item's merged default is empty; when none is empty the call
returns success without touching the filesystem. -/
theorem collectConfig_silent_missing_iff :
    ∀ (schema : ConfigMap) (schemaMod storeMod : Nat) (fs : FS),
      fs.jsonStore.isSome = true →
      ¬ storeMod < schemaMod →
      (CollectConfig true schema schemaMod storeMod true fs =
          .ok (.interactive (updateConfigMapWithExistingValues schema
            (collectExistingValues fs)) fs)
        ↔ ∃ p ∈ updateConfigMapWithExistingValues schema (collectExistingValues fs),
            p.2.default = "") ∧
      ((∀ p ∈ updateConfigMapWithExistingValues schema (collectExistingValues fs),
          p.2.default ≠ "") →
        CollectConfig true schema schemaMod storeMod true fs = .ok (.done fs)) := by
  intro schema sm om fs h1 h2
  constructor
  · constructor
    · intro hres
      by_contra hno
      have hall : ∀ p ∈ updateConfigMapWithExistingValues schema (collectExistingValues fs),
          p.2.default ≠ "" := by
        push_neg at hno
        exact hno
      have hmiss : checkForMissingValues (updateConfigMapWithExistingValues schema
          (collectExistingValues fs)) = [] :=
        (checkForMissingValues_eq_nil_iff _).mpr hall
      rw [collectConfig_upToDate schema sm om fs h1 h2,
        if_neg (fun hne => hne hmiss)] at hres
      simp at hres
    · intro hex
      have hmiss : checkForMissingValues (updateConfigMapWithExistingValues schema
          (collectExistingValues fs)) ≠ [] := by
        intro hnil
        obtain ⟨p, hp, he⟩ := hex
        exact ((checkForMissingValues_eq_nil_iff _).mp hnil p hp) he
      rw [collectConfig_upToDate schema sm om fs h1 h2, if_pos hmiss]
  · intro hall
    have hmiss : checkForMissingValues (updateConfigMapWithExistingValues schema
        (collectExistingValues fs)) = [] :=
      (checkForMissingValues_eq_nil_iff _).mpr hall
    rw [collectConfig_upToDate schema sm om fs h1 h2, if_neg (fun hne => hne hmiss)]

/-! ### Claim C4 -/

/-- Claim C4.  Round-trip: saving a schema, reading the stored values back,
and merging them into a freshly loaded identical schema reproduces the
schema exactly, and hence the same default for every key present in both the
schema and the store. -/
theorem saveLoadMerge_roundtrip (cm : ConfigMap) (h : (cm.map Prod.fst).Nodup) :
    updateConfigMapWithExistingValues cm (loadExistingValues (saveConfigPairs cm)) = cm ∧
    ∀ (k : String) (it : ItemConfig), (k, it) ∈ cm →
      lookupVal (updateConfigMapWithExistingValues cm
        (loadExistingValues (saveConfigPairs cm))) k = some it := by
  refine ⟨update_save_load_eq cm h, ?_⟩
  intro k it hm
  rw [update_save_load_eq cm h]
  exact lookupVal_of_mem_nodup cm h k it hm

/-! ### Claim C7 -/

/-- Claim C7.  One theorem per dispatch case of `interactiveConfig`: `s`
saves the current in-memory schema and stays in the loop; `c` returns
successfully; a parseable integer in `[1, N]` consumes a replacement line,
which leaves the item unchanged when empty and replaces its default when
non-empty; any other line re-loops without changing the schema; an exhausted
input stream is a read failure returned as an error, and a successful return
can only arise from a line dispatched as `c`. -/
theorem interactiveConfig_dispatch :
    (∀ (cm : ConfigMap) (fs : FS) (l : String) (rest : List String),
        toLowerStr (trimSpace l) = "s" →
        interactiveConfig cm fs (l :: rest) = interactiveConfig cm (saveConfig fs cm) rest) ∧
    (∀ (cm : ConfigMap) (fs : FS) (l : String) (rest : List String),
        toLowerStr (trimSpace l) = "c" →
        interactiveConfig cm fs (l :: rest) = .ok (cm, fs)) ∧
    (∀ (cm : ConfigMap) (fs : FS) (l v : String) (rest : List String) (i : Int),
        ¬ toLowerStr (trimSpace l) = "s" → ¬ toLowerStr (trimSpace l) = "c" →
        atoi (trimSpace l) = some i → ¬ (i < 1 ∨ i > (cm.length : Int)) →
        trimSpace v = "" →
        interactiveConfig cm fs (l :: v :: rest) = interactiveConfig cm fs rest) ∧
    (∀ (cm : ConfigMap) (fs : FS) (l v : String) (rest : List String) (i : Int),
        ¬ toLowerStr (trimSpace l) = "s" → ¬ toLowerStr (trimSpace l) = "c" →
        atoi (trimSpace l) = some i → ¬ (i < 1 ∨ i > (cm.length : Int)) →
        ¬ trimSpace v = "" →
        interactiveConfig cm fs (l :: v :: rest) =
          interactiveConfig (setDefault cm
            ((sortKeys (cm.map Prod.fst)).getD (i.toNat - 1) "") (trimSpace v)) fs rest) ∧
    (∀ (cm : ConfigMap) (fs : FS) (l : String) (rest : List String),
        ¬ toLowerStr (trimSpace l) = "s" → ¬ toLowerStr (trimSpace l) = "c" →
        (∀ i : Int, atoi (trimSpace l) = some i → i < 1 ∨ i > (cm.length : Int)) →
        interactiveConfig cm fs (l :: rest) = interactiveConfig cm fs rest) ∧
    (∀ (cm : ConfigMap) (fs : FS),
        interactiveConfig cm fs [] = .error "failed to read input") ∧
    (∀ (cm : ConfigMap) (fs : FS) (input : List String) (r : ConfigMap × FS),
        interactiveConfig cm fs input = .ok r →
        ∃ l ∈ input, toLowerStr (trimSpace l) = "c") := by
  have hlen : ∀ cm : ConfigMap, (sortKeys (cm.map Prod.fst)).length = cm.length := by
    intro cm
    rw [sortKeys_length, List.length_map]
  refine ⟨?_, ?_, ?_, ?_, ?_, ?_, ?_⟩
  · intro cm fs l rest h
    rw [interactiveConfig, interactiveConfig, interactiveLoop_cons_s _ _ _ _ _ h]
  · intro cm fs l rest h
    rw [interactiveConfig, interactiveLoop_cons_c _ _ _ _ _ h]
  · intro cm fs l v rest i hs hc hA hr hv
    rw [interactiveConfig, interactiveConfig,
      interactiveLoop_cons_num_empty _ _ _ _ _ _ i hs hc hA (by rw [hlen]; exact hr) hv]
  · intro cm fs l v rest i hs hc hA hr hv
    rw [interactiveConfig, interactiveConfig,
      interactiveLoop_cons_num_set _ _ _ _ _ _ i hs hc hA (by rw [hlen]; exact hr) hv,
      setDefault_keys]
  · intro cm fs l rest hs hc hbad
    rw [interactiveConfig, interactiveConfig,
      interactiveLoop_cons_invalid _ _ _ _ _ hs hc
        (fun i hA => by rw [hlen]; exact hbad i hA)]
  · intro cm fs
    rw [interactiveConfig, interactiveLoop_nil]
  · intro cm fs input r h
    rw [interactiveConfig] at h
    exact interactiveLoop_ok_mem_c_aux input.length input le_rfl _ cm fs r h

/-! ### Claim C8 -/

/-- Claim C8.  A session whose input never dispatches `s` and that returns
successfully (it ended with `c`) leaves both output files exactly as they
were: unsaved in-memory edits are never persisted. -/
theorem interactive_continue_discards_edits :
    ∀ (input : List String) (cm cm' : ConfigMap) (fs fs' : FS),
      (∀ l ∈ input, toLowerStr (trimSpace l) ≠ "s") →
      interactiveConfig cm fs input = .ok (cm', fs') →
      fs'.jsonStore = fs.jsonStore ∧ fs'.envFile = fs.envFile := by
  intro input cm cm' fs fs' hns h
  rw [interactiveConfig] at h
  have he : fs' = fs := interactiveLoop_noSave_aux input.length input le_rfl _ cm cm' fs fs' hns h
  rw [he]
  exact ⟨rfl, rfl⟩

/-! ### Claim C10 -/

/-- Claim C10.  Dispatch is on the whitespace-trimmed, lower-cased input: any
line trimming and lower-casing to `s` (such as `S` with surrounding spaces)
behaves exactly like `s`, likewise for `c`; in the deletion prompt any case
variant of `yes` confirms and every other input cancels. -/
theorem trim_lower_dispatch :
    (∀ (l : String) (cm : ConfigMap) (fs : FS) (rest : List String),
        toLowerStr (trimSpace l) = "s" →
        interactiveConfig cm fs (l :: rest) = interactiveConfig cm fs ("s" :: rest)) ∧
    (∀ (l : String) (cm : ConfigMap) (fs : FS) (rest : List String),
        toLowerStr (trimSpace l) = "c" →
        interactiveConfig cm fs (l :: rest) = interactiveConfig cm fs ("c" :: rest)) ∧
    (∀ (l : String) (fs : FS) (files : List OutFile) (rest : List String),
        toLowerStr (trimSpace l) = "yes" →
        promptAndDeleteFiles fs files (l :: rest) = .ok (deleteFiles fs files)) ∧
    (∀ (l : String) (fs : FS) (files : List OutFile) (rest : List String),
        toLowerStr (trimSpace l) ≠ "yes" →
        promptAndDeleteFiles fs files (l :: rest) = .ok fs) := by
  refine ⟨?_, ?_, ?_, ?_⟩
  · intro l cm fs rest h
    rw [interactiveConfig, interactiveConfig, interactiveLoop_cons_s _ _ _ _ _ h,
      interactiveLoop_cons_s (sortKeys (cm.map Prod.fst)) cm fs "s" rest rfl]
  · intro l cm fs rest h
    rw [interactiveConfig, interactiveConfig, interactiveLoop_cons_c _ _ _ _ _ h,
      interactiveLoop_cons_c (sortKeys (cm.map Prod.fst)) cm fs "c" rest rfl]
  · intro l fs files rest h
    rw [promptAndDeleteFiles, if_pos h]
  · intro l fs files rest h
    rw [promptAndDeleteFiles, if_neg h]

/-! ### Concrete instances -/

/-- The single-item schema of `TestInteractiveConfig`. -/
def sampleCM : ConfigMap := [("key1", { description := "Test key 1", default := "default1" })]

/-- A filesystem on which neither output file exists. -/
def emptyFS : FS := { jsonStore := none, envFile := none }

theorem collectConfig_silent_missing_iff_witness :
    CollectConfig true [("k1", { default := "" })] 0 0 true
        { jsonStore := some [], envFile := none } =
      .ok (.interactive (updateConfigMapWithExistingValues [("k1", { default := "" })]
        (collectExistingValues { jsonStore := some [], envFile := none }))
        { jsonStore := some [], envFile := none }) ∧
    CollectConfig true [("k2", { default := "v" })] 0 0 true
        { jsonStore := some [], envFile := none } =
      .ok (.done { jsonStore := some [], envFile := none }) := by
  constructor
  · exact ((collectConfig_silent_missing_iff [("k1", { default := "" })] 0 0
      { jsonStore := some [], envFile := none } rfl (by omega)).1).mpr (by decide)
  · exact (collectConfig_silent_missing_iff [("k2", { default := "v" })] 0 0
      { jsonStore := some [], envFile := none } rfl (by omega)).2 (by decide)

theorem compareConfigs_key_sets_witness :
    compareConfigs [("A", { default := "x" }), ("B", { default := "y" })]
        [("A", "1"), ("B", "2"), ("C", "3")] = true ∧
    compareConfigs [("A", { default := "x" }), ("B", { default := "y" })]
        [("A", "1"), ("B", "2")] = false :=
  ⟨compareConfigs_key_sets.2.1 _ _ "1" "2" "3",
   compareConfigs_key_sets.2.2 _ _ "1" "2"⟩

theorem saveLoadMerge_roundtrip_witness :
    updateConfigMapWithExistingValues
        [("key1", { default := "value1" }), ("key2", { default := "value2" })]
        (loadExistingValues (saveConfigPairs
          [("key1", { default := "value1" }), ("key2", { default := "value2" })])) =
      [("key1", { default := "value1" }), ("key2", { default := "value2" })] :=
  (saveLoadMerge_roundtrip
    [("key1", { default := "value1" }), ("key2", { default := "value2" })] (by decide)).1

theorem saveConfig_envFile_spec_witness :
    (saveConfig emptyFS
        [("key1", { default := "value1", tempEnvironmentVariableName := "KEY1" }),
         ("key2", { default := "value2" })]).envFile =
      some (String.intercalate "\n" (envLines
        [("key1", { default := "value1", tempEnvironmentVariableName := "KEY1" }),
         ("key2", { default := "value2" })])) ∧
    (saveConfig { jsonStore := none, envFile := some "stale" }
        [("key3", { default := "value3" })]).envFile = some "stale" := by
  constructor
  · exact (saveConfig_envFile_spec emptyFS _).2.1 (by decide)
  · exact (saveConfig_envFile_spec { jsonStore := none, envFile := some "stale" } _).2.2
      (by decide)

theorem collectConfig_store_read_spec_witness :
    lookupVal (loadExistingValues [("a", "1"), ("a", "2")]) "a" = some "2" :=
  (collectConfig_store_read_spec.2 [("a", "1"), ("a", "2")] "a").trans rfl

theorem deleteConfig_prompt_spec_witness :
    DeleteConfig { jsonStore := some [("n", "v")], envFile := some "E=1" } false ["no"] =
      .ok { jsonStore := some [("n", "v")], envFile := some "E=1" } ∧
    DeleteConfig { jsonStore := some [("n", "v")], envFile := some "E=1" } false ["yes"] =
      .ok { jsonStore := none, envFile := none } ∧
    DeleteConfig { jsonStore := none, envFile := none } false [] =
      .ok { jsonStore := none, envFile := none } :=
  ⟨(deleteConfig_prompt_spec [("n", "v")] "E=1" []).1,
   (deleteConfig_prompt_spec [("n", "v")] "E=1" []).2.1,
   (deleteConfig_prompt_spec [("n", "v")] "E=1" []).2.2 false []⟩

theorem interactiveConfig_dispatch_witness :
    interactiveConfig sampleCM emptyFS ["s", "c"] =
      interactiveConfig sampleCM (saveConfig emptyFS sampleCM) ["c"] ∧
    interactiveConfig sampleCM emptyFS ["c"] = .ok (sampleCM, emptyFS) ∧
    interactiveConfig sampleCM emptyFS ["1", "", "c"] =
      interactiveConfig sampleCM emptyFS ["c"] ∧
    interactiveConfig sampleCM emptyFS ["1", "newvalue"] =
      interactiveConfig (setDefault sampleCM
        ((sortKeys (sampleCM.map Prod.fst)).getD 0 "") (trimSpace "newvalue")) emptyFS [] ∧
    interactiveConfig sampleCM emptyFS ["x", "c"] = interactiveConfig sampleCM emptyFS ["c"] ∧
    interactiveConfig sampleCM emptyFS [] = .error "failed to read input" ∧
    ∃ l ∈ ["c"], toLowerStr (trimSpace l) = "c" := by
  refine ⟨?_, ?_, ?_, ?_, ?_, ?_, ?_⟩
  · exact interactiveConfig_dispatch.1 sampleCM emptyFS "s" ["c"] rfl
  · exact interactiveConfig_dispatch.2.1 sampleCM emptyFS "c" [] rfl
  · exact interactiveConfig_dispatch.2.2.1 sampleCM emptyFS "1" "" ["c"] 1
      (by decide) (by decide) rfl (by decide) rfl
  · exact interactiveConfig_dispatch.2.2.2.1 sampleCM emptyFS "1" "newvalue" [] 1
      (by decide) (by decide) rfl (by decide) (by decide)
  · exact interactiveConfig_dispatch.2.2.2.2.1 sampleCM emptyFS "x" ["c"]
      (by decide) (by decide) (fun i h => nomatch h)
  · exact interactiveConfig_dispatch.2.2.2.2.2.1 sampleCM emptyFS
  · exact interactiveConfig_dispatch.2.2.2.2.2.2 sampleCM emptyFS ["c"]
      (sampleCM, emptyFS) rfl

theorem interactive_continue_discards_edits_witness :
    ({ jsonStore := some [("key1", "old")], envFile := some "KEY1=old" } : FS).jsonStore =
      ({ jsonStore := some [("key1", "old")], envFile := some "KEY1=old" } : FS).jsonStore ∧
    ({ jsonStore := some [("key1", "old")], envFile := some "KEY1=old" } : FS).envFile =
      ({ jsonStore := some [("key1", "old")], envFile := some "KEY1=old" } : FS).envFile :=
  interactive_continue_discards_edits ["1", "newvalue", "c"] sampleCM
    [("key1", { description := "Test key 1", default := "newvalue" })]
    { jsonStore := some [("key1", "old")], envFile := some "KEY1=old" }
    { jsonStore := some [("key1", "old")], envFile := some "KEY1=old" }
    (by decide) rfl

theorem trim_lower_dispatch_witness :
    interactiveConfig sampleCM emptyFS [" S ", "c"] =
      interactiveConfig sampleCM emptyFS ["s", "c"] ∧
    interactiveConfig sampleCM emptyFS ["C"] = interactiveConfig sampleCM emptyFS ["c"] ∧
    promptAndDeleteFiles { jsonStore := some [("n", "v")], envFile := some "E=1" }
        [OutFile.json, OutFile.env] ["YES"] =
      .ok (deleteFiles { jsonStore := some [("n", "v")], envFile := some "E=1" }
        [OutFile.json, OutFile.env]) ∧
    promptAndDeleteFiles { jsonStore := some [("n", "v")], envFile := some "E=1" }
        [OutFile.json, OutFile.env] ["no"] =
      .ok { jsonStore := some [("n", "v")], envFile := some "E=1" } := by
  refine ⟨?_, ?_, ?_, ?_⟩
  · exact trim_lower_dispatch.1 " S " sampleCM emptyFS ["c"] rfl
  · exact trim_lower_dispatch.2.1 "C" sampleCM emptyFS [] rfl
  · exact trim_lower_dispatch.2.2.1 "YES" _ [OutFile.json, OutFile.env] [] rfl
  · exact trim_lower_dispatch.2.2.2 "no" _ [OutFile.json, OutFile.env] [] (by decide)

end RepoConfig
